import Mathlib

/-!
Verification development for the `plum_ecomax` integration sources
(`custom_components/plum_ecomax/{__init__,connection,services}.py`).

Python code is shallowly embedded as executable Lean definitions:
dictionaries become association lists or structures with `Option` fields,
raised exceptions become `Except`/dedicated result constructors, and
awaited device queries become oracle values (`Option α`, `none` meaning
the query timed out).
-/

namespace PlumEcomax

/-! ## Character classes of the `format_model_name` regular expression

The pattern is `^([A-Z]+)\s{0,}([0-9]{3,})(.+)$` compiled with
`re.IGNORECASE`.  We model the ASCII fragment of the character classes:
`[A-Z]` under IGNORECASE is `[A-Za-z]`, `\s` is the ASCII whitespace set
`[ \t\n\r\x0b\x0c]`, and `.` is any character except a newline. -/

/-- The class `[A-Z]` matched case-insensitively (ASCII fragment). -/
def reLetter (c : Char) : Bool :=
  ('A' ≤ c && c ≤ 'Z') || ('a' ≤ c && c ≤ 'z')

/-- Python `\s` (ASCII fragment). -/
def reSpace (c : Char) : Bool :=
  c == ' ' || c == '\t' || c == '\n' || c == '\r' || c == '\x0b' || c == '\x0c'

/-- The class `[0-9]`. -/
def reDigit (c : Char) : Bool :=
  '0' ≤ c && c ≤ '9'

/-- Greedy span of a character class: the maximal prefix satisfying `p`,
paired with the remainder. -/
def spanP (p : Char → Bool) : List Char → List Char × List Char
  | [] => ([], [])
  | c :: cs =>
    if p c then
      let r := spanP p cs
      (c :: r.1, r.2)
    else ([], c :: cs)

/-- The group matched by `(.+)$` against exactly the remainder `r`
(no MULTILINE): `.` cannot match `'\n'`, and `$` matches at the end of the
string or just before a single final newline.  `none` when `(.+)$` cannot
consume `r`. -/
def dotPlusEnd (r : List Char) : Option (List Char) :=
  match r with
  | [] => none
  | _ :: _ =>
    if '\n' ∈ r then
      if r.getLast? = some '\n' ∧ '\n' ∉ r.dropLast ∧ r.dropLast ≠ [] then
        some r.dropLast
      else none
    else some r

/-- Full match of `^([A-Z]+)\s{0,}([0-9]{3,})(.+)$` (IGNORECASE) against a
character list, returning the three groups (letters, digits, trailing
group).  The letter, whitespace and digit classes are pairwise disjoint, so
the greedy quantifiers take the maximal runs; the only backtracking point is
the digit group giving up its final digit when nothing is left for `(.+)`
(which also happens when only a final newline is left, since `.` cannot
match it while `$` still can). -/
def matchModel (cs : List Char) : Option (List Char × List Char × List Char) :=
  let p1 := spanP reLetter cs
  if p1.1.isEmpty then none
  else
    let p2 := spanP reSpace p1.2
    let p3 := spanP reDigit p2.2
    let ds := p3.1
    match p3.2 with
    | [] =>
      if 4 ≤ ds.length then some (p1.1, ds.take (ds.length - 1), ds.drop (ds.length - 1))
      else none
    | r =>
      if r = ['\n'] then
        if 4 ≤ ds.length then some (p1.1, ds.take (ds.length - 1), ds.drop (ds.length - 1))
        else none
      else
        match dotPlusEnd r with
        | some core => if 3 ≤ ds.length then some (p1.1, ds, core) else none
        | none => none

/-- Embedding of `format_model_name` (`__init__.py`): on a regex match the
result is `f"{model_device} {model_number}{model_suffix}"` where
`model_device` is replaced by `"ecoMAX"` only when the letters group equals
`"EM"` exactly (a case-sensitive `==` comparison, even though the pattern
itself is matched case-insensitively); otherwise the input is returned
unchanged. -/
def format_model_name (model_name : String) : String :=
  match matchModel model_name.data with
  | some (ls, ds, suffix) =>
    let model_device := if ls = ['E', 'M'] then "ecoMAX".data else ls
    String.mk (model_device ++ ' ' :: (ds ++ suffix))
  | none => model_name

/-! ## Capability discovery (`connection.py`, `async_get_device_capabilities`)

A device snapshot is modelled by the set of its top-level data keys together
with the mixer collection stored under the `"mixers"` key (meaningful only
when that key is present, mirroring `device.data[ATTR_MIXERS]`).  The string
constants `ATTR_MIXERS = "mixers"` and `ATTR_WATER_HEATER = "water_heater"`
come from the integration's `const` module (not shipped alongside these
sources); their values are fixed by the capability tokens the spec names.
`ATTR_WATER_HEATER_TEMP = "water_heater_temp"` is defined in
`connection.py` itself. -/

def ATTR_MIXERS : String := "mixers"

def ATTR_WATER_HEATER : String := "water_heater"

def ATTR_WATER_HEATER_TEMP : String := "water_heater_temp"

/-- One mixer sub-device: its `index` attribute and the key set of its own
`data` mapping. -/
structure MixerSnap where
  index : Nat
  attrs : Finset String
  deriving DecidableEq

/-- A device snapshot: the key set of `device.data` plus the mixer
collection stored under `"mixers"` (read by the code only when that key is
among `topKeys`). -/
structure DeviceSnap where
  topKeys : Finset String
  mixers : List MixerSnap

/-- The set comprehension `{f"mixer_{mixer.index}_{x}" for x in mixer.data.keys()}`. -/
def mixerTokens (m : MixerSnap) : Finset String :=
  m.attrs.image (fun x => "mixer_" ++ toString m.index ++ "_" ++ x)

/-- Embedding of `async_get_device_capabilities`: start from the top-level
key set, union in the per-mixer tokens when `"mixers"` is among the keys
(iterating the mixer collection in order), then add `"water_heater"` when
`"water_heater_temp"` is in the accumulated set. -/
def async_get_device_capabilities (device : DeviceSnap) : Finset String :=
  let capabilities := device.topKeys
  let capabilities :=
    if ATTR_MIXERS ∈ capabilities then
      device.mixers.foldl (fun acc m => acc ∪ mixerTokens m) capabilities
    else capabilities
  if ATTR_WATER_HEATER_TEMP ∈ capabilities then
    insert ATTR_WATER_HEATER capabilities
  else capabilities

/-- The capability set as the spec describes it: all top-level value names,
plus `mixer_{i}_{attr}` for every mixer of the collection (present only when
the snapshot has a `"mixers"` key) and every attribute it exposes, plus
`"water_heater"` exactly when `"water_heater_temp"` is a top-level name. -/
def capabilitySetSpec (device : DeviceSnap) : Finset String :=
  device.topKeys ∪
    (if ATTR_MIXERS ∈ device.topKeys then
      (device.mixers.map mixerTokens).foldr (· ∪ ·) ∅
    else ∅) ∪
    (if ATTR_WATER_HEATER_TEMP ∈ device.topKeys then {ATTR_WATER_HEATER} else ∅)

/-! ## Target-device resolution (`services.py`, `async_extract_target_device`)

The registry lookup is modelled by a partial map from device ids to the
single identifier string carried by the registry device
(`list(device.identifiers)[0][1]`).  Devices are opaque handles
(natural numbers); the connection exposes the main device handle and the
mixer dictionary under `device.data[ATTR_MIXERS]` (missing collection is the
empty dictionary, matching `.get(ATTR_MIXERS, {})`). -/

/-- Helper for `pat in s` on character lists: match of `pat` at the front. -/
def startsWithL : List Char → List Char → Bool
  | [], _ => true
  | _ :: _, [] => false
  | p :: ps, c :: cs => p == c && startsWithL ps cs

/-- Python substring containment `pat in s`. -/
def hasSub (pat : List Char) : List Char → Bool
  | [] => pat.isEmpty
  | c :: rest => startsWithL pat (c :: rest) || hasSub pat rest

/-- Split off the characters before the first `'-'`; `none` when there is no
separator, `some rest` gives the characters after it. -/
def breakDash : List Char → List Char × Option (List Char)
  | [] => ([], none)
  | c :: rest =>
    if c = '-' then ([], some rest)
    else
      let r := breakDash rest
      (c :: r.1, r.2)

/-- Python `s.split("-", limit)`: split at the first `limit` occurrences of
`'-'`, keeping the remainder whole. -/
def splitDash : Nat → List Char → List (List Char)
  | 0, cs => [cs]
  | n + 1, cs =>
    match breakDash cs with
    | (pre, some post) => pre :: splitDash n post
    | (_, none) => [cs]

/-- Value of a digit string. -/
def digitsVal (ds : List Char) : Nat :=
  ds.foldl (fun acc c => 10 * acc + (c.toNat - '0'.toNat)) 0

/-- Python `int(s)` on the popped token: strips ASCII whitespace, accepts an
optional sign followed by a non-empty digit run, raises `ValueError`
(modelled as `none`) otherwise.  Underscore digit grouping is not modelled;
no token in these claims contains one. -/
def pyInt (cs : List Char) : Option Int :=
  let s := ((cs.dropWhile reSpace).reverse.dropWhile reSpace).reverse
  match s with
  | [] => none
  | c :: ds =>
    if c = '-' then
      if !ds.isEmpty && ds.all reDigit then some (-(digitsVal ds : Int)) else none
    else if c = '+' then
      if !ds.isEmpty && ds.all reDigit then some (digitsVal ds : Int) else none
    else if (c :: ds).all reDigit then some (digitsVal (c :: ds) : Int)
    else none

/-- Dictionary lookup `mixers[index]`, `none` playing the raised `KeyError`. -/
def lookupMixer (ms : List (Int × Nat)) (i : Int) : Option Nat :=
  (ms.find? (fun p => p.1 == i)).map Prod.snd

/-- The connection as seen by `async_extract_target_device`:
`connection.device` (an opaque handle) and
`connection.device.data.get(ATTR_MIXERS, {})`. -/
structure ConnDevices where
  main : Nat
  mixers : List (Int × Nat)

/-- The distinct failure modes of the resolution: the registry has no device
for the id (`HomeAssistantError` raised by the code itself), or `int()`
raised `ValueError` on the token after the third hyphen. -/
inductive ResolveErr where
  | deviceNotFound
  | valueError
  deriving DecidableEq

/-- Embedding of `async_extract_target_device`: look the id up in the
registry; on the identifier containing `"-mixer-"`, parse
`identifier.split("-", 3).pop()` as an integer and return that mixer,
falling back to the main device when the index is absent (`KeyError`
caught); identifiers without the marker resolve to the main device. -/
def async_extract_target_device (reg : String → Option String)
    (conn : ConnDevices) (device_id : String) : Except ResolveErr Nat :=
  match reg device_id with
  | none => .error .deviceNotFound
  | some identifier =>
    if hasSub "-mixer-".data identifier.data then
      match pyInt ((splitDash 3 identifier.data).getLastD []) with
      | none => .error .valueError
      | some index =>
        match lookupMixer conn.mixers index with
        | some m => .ok m
        | none => .ok conn.main
    else .ok conn.main


/-! ## Parameter fan-out (`services.py`, `async_get_device_parameter` and
the `get_parameter` service)

A resolved target is either the main `EcoMAX` device (which has no `index`
attribute) or a `Mixer` sub-device carrying its 0-based `index`.  The
`await device.get(name)` call is an oracle: it yields a parameter or raises
`ParameterNotFoundError` / `TimeoutError`; the product uid read through
`get_nowait` on the device (or its parent) is a second oracle value. -/

/-- A resolved target device, as far as `hasattr(device, "index")` and
`device.__class__.__name__` can tell them apart. -/
inductive PlumDevice where
  | ecomax
  | mixer (index : Nat)
  deriving DecidableEq

/-- Model of `device.__class__.__name__.lower()`. -/
def deviceTypeName : PlumDevice → String
  | .ecomax => "ecomax"
  | .mixer _ => "mixer"

/-- The two exception types caught around `await device.get(name)`. -/
inductive FetchErr where
  | parameterNotFound
  | timedOut
  deriving DecidableEq

/-- The numeric payload of a fetched parameter. -/
structure ParamVal where
  value : Int
  min_value : Int
  max_value : Int
  deriving DecidableEq

/-- The per-parameter record the service returns for one device. -/
structure ParamRecord where
  name : String
  value : Int
  min_value : Int
  max_value : Int
  device_type : String
  device_uid : String
  device_index : Nat
  deriving DecidableEq

/-- Embedding of `async_get_device_parameter`: catching
`ParameterNotFoundError` and `TimeoutError` yields `None`; on success the
record carries `device.index + 1` for a mixer (which has an `index`
attribute) and `0` for the main device, and the product uid read without
waiting, defaulting to `"unknown"`. -/
def async_get_device_parameter (device : PlumDevice) (name : String)
    (fetched : Except FetchErr ParamVal) (productUid : Option String) :
    Option ParamRecord :=
  match fetched with
  | .error _ => none
  | .ok parameter =>
    some
      { name := name
        value := parameter.value
        min_value := parameter.min_value
        max_value := parameter.max_value
        device_type := deviceTypeName device
        device_uid := productUid.getD "unknown"
        device_index := match device with | .mixer i => i + 1 | .ecomax => 0 }

/-- Embedding of the `get_parameter` service body: collect the non-`None`
per-device records (`any()` over a list of non-empty dictionaries is true
exactly when the list is non-empty), raising `HomeAssistantError` when no
device produced a record. -/
def async_get_parameter_service (name : String) (devices : List PlumDevice)
    (fetch : PlumDevice → Except FetchErr ParamVal)
    (productUid : PlumDevice → Option String) :
    Except Unit (List ParamRecord) :=
  let parameters :=
    (devices.map fun device =>
      async_get_device_parameter device name (fetch device) (productUid device)).filterMap id
  if parameters.isEmpty then .error () else .ok parameters

/-! ## Schedule decoding (`services.py`, `async_schedule_day_to_dict`)

`ScheduleDay.intervals` is the 48-slot boolean vector of the schedule day.
`START_OF_DAY`, `TIME_FORMAT`, `STATE_DAY` and `STATE_NIGHT` are constants
of the device-communication library (`pyplumio.helpers.schedule`):
`TIME_FORMAT` is `"%H:%M"` and `START_OF_DAY` is `"00:00"` — the service
layer itself witnesses this by validating service input as `"%H:%M:%S"` and
stripping the last three characters (`start_time[:-3]`) before handing the
time to the library.  The dictionary comprehension is modelled as the
association list produced in enumeration order. -/

def STATE_DAY : String := "day"

def STATE_NIGHT : String := "night"

/-- Zero-padded two-digit decimal. -/
def pad2 (n : Nat) : String :=
  if n < 10 then "0" ++ toString n else toString n

/-- Model of `(START_OF_DAY_DT + timedelta(minutes=m)).strftime(TIME_FORMAT)` with
`TIME_FORMAT = "%H:%M"`: `%H` wraps modulo 24. -/
def strftimeHM (m : Nat) : String :=
  pad2 (m / 60 % 24) ++ ":" ++ pad2 (m % 60)

/-- A pyplumio `ScheduleDay`. -/
structure ScheduleDay where
  intervals : List Bool

/-- The `enumerate`-shaped comprehension of `async_schedule_day_to_dict`,
carrying the running index. -/
def scheduleEntriesFrom (index : Nat) : List Bool → List (String × String)
  | [] => []
  | value :: rest =>
    (strftimeHM (30 * index), if value then STATE_DAY else STATE_NIGHT)
      :: scheduleEntriesFrom (index + 1) rest

/-- Embedding of `async_schedule_day_to_dict`. -/
def async_schedule_day_to_dict (schedule_day : ScheduleDay) :
    List (String × String) :=
  scheduleEntriesFrom 0 schedule_day.intervals

/-- The key list the spec describes for a 48-slot day: `"HH:MM"` stamps
starting at midnight and stepping 30 minutes. -/
def halfHourKeys : List String :=
  (List.range 48).map fun i =>
    pad2 (i / 2) ++ ":" ++ (if i % 2 = 0 then "00" else "30")

/-! ## Alert events (`__init__.py`, `async_dispatch_alert_events`)

The registry device lookup `dr.async_get_device({(DOMAIN, connection.uid)})`
is an oracle `Option RegDevice`; `alert.from_dt`/`alert.to_dt` are naive
datetimes formatted with `DATE_STR_FORMAT = "%Y-%m-%d %H:%M:%S"`. -/

/-- Zero-padded four-digit decimal (`%Y`). -/
def pad4 (n : Nat) : String :=
  if n < 10 then "000" ++ toString n
  else if n < 100 then "00" ++ toString n
  else if n < 1000 then "0" ++ toString n
  else toString n

/-- A naive datetime value. -/
structure PyDateTime where
  year : Nat
  month : Nat
  day : Nat
  hour : Nat
  minute : Nat
  second : Nat
  deriving DecidableEq

/-- Model of `dt.strftime("%Y-%m-%d %H:%M:%S")`. -/
def strftimeFull (d : PyDateTime) : String :=
  pad4 d.year ++ "-" ++ pad2 d.month ++ "-" ++ pad2 d.day ++ " " ++
    pad2 d.hour ++ ":" ++ pad2 d.minute ++ ":" ++ pad2 d.second

/-- A pyplumio `Alert`: code, start, optional end (`None` while ongoing). -/
structure Alert where
  code : Nat
  from_dt : PyDateTime
  to_dt : Option PyDateTime

/-- A registry device; only its `id` is read. -/
structure RegDevice where
  id : String

/-- One fired `plum_ecomax_alert` event.  The `ATTR_TO` key is present in
the event dictionary only when `alert.to_dt is not None`, hence the
`Option`. -/
structure AlertEvent where
  name : String
  device_id : String
  code : Nat
  fromTs : String
  toTs : Option String
  deriving DecidableEq

/-- Embedding of `async_dispatch_alert_events`: when the registry device
resolves, one event is fired per alert in list order; when it does not, the
whole batch is dropped (only an error is logged). -/
def async_dispatch_alert_events (registryDevice : Option RegDevice)
    (connName : String) (alerts : List Alert) : List AlertEvent :=
  match registryDevice with
  | none => []
  | some device =>
    alerts.map fun alert =>
      { name := connName
        device_id := device.id
        code := alert.code
        fromTs := strftimeFull alert.from_dt
        toTs := alert.to_dt.map strftimeFull }

/-! ## Config-entry migration (`__init__.py`, `async_migrate_entry`)

The persisted record's data dictionary is projected onto the five keys the
migration touches (`product_type`, `model`, `capabilities`, `sub_devices`,
`product_id`) plus the untouched remainder; `Option` tracks key presence
(`del data[CONF_CAPABILITIES]` with its swallowed `KeyError` is
`capabilities := none`, reading `data[CONF_MODEL]` from a record without a
model raises `KeyError`).  Each awaited device call is an oracle value,
`none` meaning `asyncio.TimeoutError`; `async_get_sub_devices` (defined in
the integration's `connection` module) is treated as one such call whose
successful result is the sub-device name list stored under
`CONF_SUB_DEVICES`.  The persisted record changes only at the single
`hass.config_entries.async_update_entry` call performed after all steps;
a run that returns `False` (timeout) or lets an exception escape never
reaches it. -/

/-- The data dictionary of a config entry, projected onto the keys the
migration reads or writes. -/
structure MigData where
  model : Option String
  product_type : Option Nat
  product_id : Option Nat
  capabilities : Option (List String)
  sub_devices : Option (List String)
  other : List (String × String)
  deriving DecidableEq

/-- A persisted config entry: schema version plus data dictionary. -/
structure MigEntry where
  version : Nat
  data : MigData
  deriving DecidableEq

/-- Payload of `device.get(ATTR_PRODUCT)`: `product.type` and `product.id`. -/
structure ProductInfo where
  type : Nat
  id : Nat
  deriving DecidableEq

/-- Outcomes of the awaited device calls of one migration run, `none`
meaning the call times out when performed.  The two `ATTR_PRODUCT` reads
are distinct awaits and may observe different values. -/
structure MigOracle where
  ecomax : Option Unit
  product1 : Option ProductInfo
  subDevices : Option (List String)
  product2 : Option ProductInfo

/-- What a migration run does at its boundary: returns `True` having
persisted the updated entry, returns `False` (a caught
`asyncio.TimeoutError`), or lets a non-timeout exception escape. -/
inductive MigResult where
  | ok (entry : MigEntry)
  | failed
  | raised
  deriving DecidableEq

/-- Step `6 → 7` and the final `async_update_entry` persist.  The `Bool`
log records each performed device query, `true` meaning it timed out. -/
def migrateFrom6 (o : MigOracle) (v : Nat) (d : MigData) (log : List Bool) :
    MigResult × List Bool :=
  if v = 6 then
    match o.product2 with
    | none => (.failed, log ++ [true])
    | some product =>
      (.ok ⟨7, { d with product_id := some product.id }⟩, log ++ [false])
  else (.ok ⟨v, d⟩, log)

/-- Step `4,5 → 6`: drop the legacy capabilities key (absence tolerated),
then recompute the sub-device list from the live device. -/
def migrateFrom45 (o : MigOracle) (v : Nat) (d : MigData) (log : List Bool) :
    MigResult × List Bool :=
  if v = 4 ∨ v = 5 then
    let d' := { d with capabilities := none }
    match o.subDevices with
    | none => (.failed, log ++ [true])
    | some sub =>
      migrateFrom6 o 6 { d' with sub_devices := some sub } (log ++ [false])
  else migrateFrom6 o v d log

/-- Step `3 → 4`: reformat the stored model name; a record with no model
key raises `KeyError`, which the `except asyncio.TimeoutError` clause does
not catch. -/
def migrateFrom3 (o : MigOracle) (v : Nat) (d : MigData) (log : List Bool) :
    MigResult × List Bool :=
  if v = 3 then
    match d.model with
    | none => (.raised, log)
    | some m =>
      migrateFrom45 o 4 { d with model := some (format_model_name m) } log
  else migrateFrom45 o v d log

/-- Step `1,2 → 3`: read the product type from the device. -/
def migrateFrom12 (o : MigOracle) (v : Nat) (d : MigData) (log : List Bool) :
    MigResult × List Bool :=
  if v = 1 ∨ v = 2 then
    match o.product1 with
    | none => (.failed, log ++ [true])
    | some product =>
      migrateFrom3 o 3 { d with product_type := some product.type } (log ++ [false])
  else migrateFrom3 o v d log

/-- Embedding of `async_migrate_entry` paired with the query log: fetch the
`ecomax` device inside the `try`, then run the version-keyed steps in
order on the copied data dictionary, persisting once at the end.  There is
no branch for versions outside the handled buckets: such a run falls
through every step and still persists and reports success. -/
def migrateRun (o : MigOracle) (entry : MigEntry) : MigResult × List Bool :=
  match o.ecomax with
  | none => (.failed, [true])
  | some _ => migrateFrom12 o entry.version entry.data [false]

/-- The migration's boundary result alone. -/
def async_migrate_entry (o : MigOracle) (entry : MigEntry) : MigResult :=
  (migrateRun o entry).1

/-- The persisted record after a run: updated only by the single
`async_update_entry` call of a successful run. -/
def persistedAfter (entry : MigEntry) : MigResult → MigEntry
  | .ok entry' => entry'
  | .failed => entry
  | .raised => entry

/-! # Theorems -/

example : format_model_name "EM350P2-ZF" = "ecoMAX 350P2-ZF" := by decide
example : format_model_name "unknown" = "unknown" := by decide
example : format_model_name "em350P2-ZF" = "em 350P2-ZF" := by decide
example : format_model_name "EM350" = "EM350" := by decide
example : format_model_name "EM3500" = "ecoMAX 3500" := by decide
example : format_model_name "EM 350X" = "ecoMAX 350X" := by decide

theorem mem_foldl_union (l : List MixerSnap) (init : Finset String) (x : String) :
    x ∈ l.foldl (fun acc m => acc ∪ mixerTokens m) init ↔
      x ∈ init ∨ ∃ m ∈ l, x ∈ mixerTokens m := by
  induction l generalizing init with
  | nil => simp
  | cons m t ih =>
    simp only [List.foldl_cons, ih, Finset.mem_union, List.mem_cons]
    constructor
    · rintro ((h | h) | ⟨m', hm', h⟩)
      · exact Or.inl h
      · exact Or.inr ⟨m, Or.inl rfl, h⟩
      · exact Or.inr ⟨m', Or.inr hm', h⟩
    · rintro (h | ⟨m', (rfl | hm'), h⟩)
      · exact Or.inl (Or.inl h)
      · exact Or.inl (Or.inr h)
      · exact Or.inr ⟨m', hm', h⟩

theorem mem_foldr_union (l : List MixerSnap) (x : String) :
    x ∈ (l.map mixerTokens).foldr (· ∪ ·) ∅ ↔ ∃ m ∈ l, x ∈ mixerTokens m := by
  induction l with
  | nil => simp
  | cons m t ih => simp [ih]

/-- Every mixer token starts with `"mixer_"`, so it is never the string
`"water_heater_temp"`. -/
theorem water_heater_temp_not_mixerToken (m : MixerSnap) :
    ATTR_WATER_HEATER_TEMP ∉ mixerTokens m := by
  intro h
  rw [mixerTokens, Finset.mem_image] at h
  obtain ⟨a, -, ha⟩ := h
  have hd := congrArg String.data ha
  simp only [String.data_append] at hd
  have hw : ATTR_WATER_HEATER_TEMP.data = 'w' :: "ater_heater_temp".data := rfl
  rw [hw] at hd
  simp only [List.cons_append, List.cons.injEq] at hd
  exact absurd hd.1 (by decide)

theorem async_get_device_capabilities_eq (device : DeviceSnap) :
    async_get_device_capabilities device = capabilitySetSpec device := by
  have hwh : ∀ init : Finset String,
      ATTR_WATER_HEATER_TEMP ∈
          device.mixers.foldl (fun acc m => acc ∪ mixerTokens m) init ↔
        ATTR_WATER_HEATER_TEMP ∈ init := by
    intro init
    rw [mem_foldl_union]
    constructor
    · rintro (h | ⟨m, -, h⟩)
      · exact h
      · exact absurd h (water_heater_temp_not_mixerToken m)
    · exact Or.inl
  unfold async_get_device_capabilities capabilitySetSpec
  ext x
  by_cases hm : ATTR_MIXERS ∈ device.topKeys <;>
    by_cases hw : ATTR_WATER_HEATER_TEMP ∈ device.topKeys <;>
      simp [hm, hw, hwh, Finset.mem_insert, Finset.mem_union, mem_foldl_union,
        mem_foldr_union] <;>
      first
        | tauto
        | aesop

example :
    async_extract_target_device (fun _ => some "uid-mixer-2")
      ⟨9, [(0, 10), (1, 11)]⟩ "d1" = .ok 9 := by rfl

example :
    async_extract_target_device (fun _ => some "uid-mixer-1")
      ⟨9, [(0, 10), (1, 11)]⟩ "d1" = .ok 11 := by rfl

example :
    async_extract_target_device (fun _ => some "a-b-c-mixer-2")
      ⟨9, [(0, 10), (1, 11), (2, 12)]⟩ "d1" = .error .valueError := by rfl


/-! ### Migration: timeouts abort without persisting (C1) -/

theorem migrateFrom6_timeout (o : MigOracle) (v : Nat) (d : MigData)
    (log : List Bool) (hmem : true ∈ (migrateFrom6 o v d log).2)
    (hlog : true ∉ log) : (migrateFrom6 o v d log).1 = .failed := by
  unfold migrateFrom6 at *
  by_cases hv : v = 6
  · simp only [hv, if_true] at hmem ⊢
    cases hp : o.product2 with
    | none => simp [hp]
    | some p => simp [hp] at hmem ⊢; exact absurd hmem hlog
  · simp only [hv, if_false] at hmem ⊢
    exact absurd hmem hlog

theorem migrateFrom45_timeout (o : MigOracle) (v : Nat) (d : MigData)
    (log : List Bool) (hmem : true ∈ (migrateFrom45 o v d log).2)
    (hlog : true ∉ log) : (migrateFrom45 o v d log).1 = .failed := by
  unfold migrateFrom45 at *
  by_cases hv : v = 4 ∨ v = 5
  · simp only [hv, if_true] at hmem ⊢
    cases hs : o.subDevices with
    | none => simp [hs]
    | some sub =>
      simp only [hs] at hmem ⊢
      exact migrateFrom6_timeout o 6 _ _ hmem (by simp [hlog])
  · simp only [hv, if_false] at hmem ⊢
    exact migrateFrom6_timeout o v d log hmem hlog

theorem migrateFrom3_timeout (o : MigOracle) (v : Nat) (d : MigData)
    (log : List Bool) (hmem : true ∈ (migrateFrom3 o v d log).2)
    (hlog : true ∉ log) : (migrateFrom3 o v d log).1 = .failed := by
  unfold migrateFrom3 at *
  by_cases hv : v = 3
  · simp only [hv, if_true] at hmem ⊢
    cases hm : d.model with
    | none => simp [hm] at hmem ⊢; exact absurd hmem hlog
    | some m =>
      simp only [hm] at hmem ⊢
      exact migrateFrom45_timeout o 4 _ _ hmem hlog
  · simp only [hv, if_false] at hmem ⊢
    exact migrateFrom45_timeout o v d log hmem hlog

theorem migrateFrom12_timeout (o : MigOracle) (v : Nat) (d : MigData)
    (log : List Bool) (hmem : true ∈ (migrateFrom12 o v d log).2)
    (hlog : true ∉ log) : (migrateFrom12 o v d log).1 = .failed := by
  unfold migrateFrom12 at *
  by_cases hv : v = 1 ∨ v = 2
  · simp only [hv, if_true] at hmem ⊢
    cases hp : o.product1 with
    | none => simp [hp]
    | some p =>
      simp only [hp] at hmem ⊢
      exact migrateFrom3_timeout o 3 _ _ hmem (by simp [hlog])
  · simp only [hv, if_false] at hmem ⊢
    exact migrateFrom3_timeout o v d log hmem hlog

/-- C1.  A migration run in which any performed device query times out — the
initial `ecomax` fetch, either `ATTR_PRODUCT` read, or the sub-device
recomputation — returns `False` without letting the timeout escape
(`MigResult.failed`, distinct from `MigResult.raised`), and the persisted
config record is left exactly as it entered: same data fields, version not
advanced. -/
theorem migration_timeout_aborts_untouched (o : MigOracle) (entry : MigEntry)
    (htimeout : true ∈ (migrateRun o entry).2) :
    async_migrate_entry o entry = .failed ∧
      persistedAfter entry (async_migrate_entry o entry) = entry := by
  have hfail : async_migrate_entry o entry = .failed := by
    unfold async_migrate_entry migrateRun at *
    cases he : o.ecomax with
    | none => simp [he]
    | some u =>
      simp only [he] at htimeout ⊢
      exact migrateFrom12_timeout o entry.version entry.data [false] htimeout
        (by simp)
  exact ⟨hfail, by rw [hfail]; rfl⟩

theorem migration_timeout_aborts_untouched_witness :
    let o : MigOracle := ⟨some (), none, none, some ⟨1, 5⟩⟩
    let entry : MigEntry := ⟨1, ⟨some "EM350P2-ZF", none, none, some ["a"], none, [("host", "h")]⟩⟩
    async_migrate_entry o entry = .failed ∧
      persistedAfter entry (async_migrate_entry o entry) = entry :=
  migration_timeout_aborts_untouched _ _ (by decide)

/-! ### Migration: unhandled versions (C2)

`async_migrate_entry` has no branch rejecting versions outside the handled
buckets: a record at version 0 (or 8) falls through every step, is
persisted unchanged, and the run reports success — there is no
unsupported-migration error in the code. -/

/-- C2 counterexample.  With every device query succeeding, migrating a
record at version 0 reports success (`True`) with the record persisted
unchanged — the run does not fail with an unsupported-migration error, so
the claim as stated is false at this input. -/
theorem migration_version0_reports_success :
    async_migrate_entry ⟨some (), some ⟨1, 2⟩, some ["mixer"], some ⟨1, 2⟩⟩
        ⟨0, ⟨some "EM350P2-ZF", none, none, none, none, [("host", "h")]⟩⟩ =
      .ok ⟨0, ⟨some "EM350P2-ZF", none, none, none, none, [("host", "h")]⟩⟩ := by
  rfl

/-- C2 amended.  A record whose version is in no handled bucket (not 1–6;
e.g. 0, 7 or 8) passes through the migration untouched whenever the initial
device fetch succeeds: no transition runs, the record is persisted with the
same version and data, and the run reports success rather than raising an
unsupported-migration error. -/
theorem migration_unhandled_version_passthrough (o : MigOracle)
    (entry : MigEntry) (hecomax : o.ecomax = some ())
    (hv : ¬(1 ≤ entry.version ∧ entry.version ≤ 6)) :
    async_migrate_entry o entry = .ok entry := by
  have h12 : ¬(entry.version = 1 ∨ entry.version = 2) := by omega
  have h3 : ¬entry.version = 3 := by omega
  have h45 : ¬(entry.version = 4 ∨ entry.version = 5) := by omega
  have h6 : ¬entry.version = 6 := by omega
  unfold async_migrate_entry migrateRun migrateFrom12 migrateFrom3
    migrateFrom45 migrateFrom6
  simp [hecomax, h12, h3, h45, h6]

theorem migration_unhandled_version_passthrough_witness :
    async_migrate_entry ⟨some (), some ⟨1, 2⟩, some ["mixer"], some ⟨1, 2⟩⟩
        ⟨8, ⟨some "EM350P2-ZF", some 0, none, none, none, []⟩⟩ =
      .ok ⟨8, ⟨some "EM350P2-ZF", some 0, none, none, none, []⟩⟩ :=
  migration_unhandled_version_passthrough _ _ (by decide) (by decide)

/-! ### Migration: happy paths from versions 1 and 6 (C3) -/

/-- C3.  With every device query answering: a record entering at version 1
exits a single run at version 7 with the product type stored, the model
reformatted by `format_model_name`, the legacy capabilities field removed,
the sub-device list stored, and the product id stored, all other fields
unchanged; a record entering at version 6 exits at version 7 with only the
product id added. -/
theorem migration_from_1_and_6 :
    (∀ (o : MigOracle) (d : MigData) (p1 : ProductInfo) (sub : List String)
        (p2 : ProductInfo) (m : String),
      o.ecomax = some () → o.product1 = some p1 → o.subDevices = some sub →
        o.product2 = some p2 → d.model = some m →
          async_migrate_entry o ⟨1, d⟩ =
            .ok ⟨7, { d with
              product_type := some p1.type
              model := some (format_model_name m)
              capabilities := none
              sub_devices := some sub
              product_id := some p2.id }⟩) ∧
    (∀ (o : MigOracle) (d : MigData) (p2 : ProductInfo),
      o.ecomax = some () → o.product2 = some p2 →
        async_migrate_entry o ⟨6, d⟩ =
          .ok ⟨7, { d with product_id := some p2.id }⟩) := by
  constructor
  · intro o d p1 sub p2 m he h1 hs h2 hm
    unfold async_migrate_entry migrateRun migrateFrom12 migrateFrom3
      migrateFrom45 migrateFrom6
    simp [he, h1, hs, h2, hm]
  · intro o d p2 he h2
    unfold async_migrate_entry migrateRun migrateFrom12 migrateFrom3
      migrateFrom45 migrateFrom6
    simp [he, h2]

theorem migration_from_1_and_6_witness :
    (async_migrate_entry ⟨some (), some ⟨2, 17⟩, some ["mixer 1"], some ⟨2, 99⟩⟩
        ⟨1, ⟨some "EM350P2-ZF", none, none, some ["water_heater"], none, [("host", "h")]⟩⟩ =
      .ok ⟨7, ⟨some "ecoMAX 350P2-ZF", some 2, some 99, none, some ["mixer 1"],
        [("host", "h")]⟩⟩) ∧
    (async_migrate_entry ⟨some (), none, none, some ⟨2, 99⟩⟩
        ⟨6, ⟨some "ecoMAX 350P2-ZF", some 2, none, none, some ["mixer 1"], []⟩⟩ =
      .ok ⟨7, ⟨some "ecoMAX 350P2-ZF", some 2, some 99, none, some ["mixer 1"], []⟩⟩) :=
  ⟨migration_from_1_and_6.1 _ _ ⟨2, 17⟩ _ ⟨2, 99⟩ "EM350P2-ZF"
      rfl rfl rfl rfl rfl,
    migration_from_1_and_6.2 _ _ ⟨2, 99⟩ rfl rfl⟩

/-! ### Model-name formatting (C4) -/

theorem reLetter_false_of_reSpace (c : Char) (h : reSpace c = true) :
    reLetter c = false := by
  simp only [reSpace, Bool.or_eq_true, beq_iff_eq] at h
  rcases h with ((((rfl | rfl) | rfl) | rfl) | rfl) | rfl <;> decide

theorem reLetter_false_of_reDigit (c : Char) (h : reDigit c = true) :
    reLetter c = false := by
  simp only [reDigit, Bool.and_eq_true, decide_eq_true_eq] at h
  simp only [reLetter, Bool.or_eq_false_iff, Bool.and_eq_false_iff,
    decide_eq_false_iff_not]
  exact ⟨Or.inl fun hA => absurd (le_trans hA h.2) (by decide),
    Or.inl fun ha => absurd (le_trans ha h.2) (by decide)⟩

theorem reSpace_false_of_reDigit (c : Char) (h : reDigit c = true) :
    reSpace c = false := by
  simp only [reSpace, Bool.or_eq_false_iff, beq_eq_false_iff_ne, ne_eq]
  refine ⟨⟨⟨⟨⟨?_, ?_⟩, ?_⟩, ?_⟩, ?_⟩, ?_⟩ <;>
    exact fun hc => absurd h (by subst hc; decide)

theorem spanP_append (p : Char → Bool) (xs ys : List Char)
    (hx : ∀ c ∈ xs, p c = true)
    (hy : ∀ c, ys.head? = some c → p c = false) :
    spanP p (xs ++ ys) = (xs, ys) := by
  induction xs with
  | nil =>
    cases ys with
    | nil => rfl
    | cons y t => simp [spanP, hy y rfl]
  | cons x t ih =>
    have hx0 : p x = true := hx x (by simp)
    have ih' := ih fun c hc => hx c (by simp [hc])
    simp [spanP, hx0, ih']

/-- C4 counterexample.  The regex matches `"em350P2-ZF"` (the pattern is
case-insensitive) but the replacement comparison `model_device == "EM"` is
case-sensitive, so the lowercase device-family token is NOT replaced by
`"ecoMAX"`: the result is `"em 350P2-ZF"`, not the `"ecoMAX 350P2-ZF"` the
claim's "likewise for lowercase em prefixes" demands. -/
theorem format_model_name_lowercase_em : format_model_name "em350P2-ZF" = "em 350P2-ZF" ∧
    format_model_name "em350P2-ZF" ≠ "ecoMAX 350P2-ZF" := by
  refine ⟨by decide, ?_⟩
  intro h
  rw [show format_model_name "em350P2-ZF" = "em 350P2-ZF" by decide] at h
  exact absurd (congrArg String.data h) (by decide)

/-- C4 amended.  For every input decomposing as letters, optional
whitespace, three-or-more digits, then a non-empty rest (not starting with a
digit and containing no newline), `format_model_name` rejoins the groups
with a single space before the number, replacing the letter group by
`"ecoMAX"` only when it is exactly the uppercase `"EM"` — a lowercase
`"em"` prefix is kept verbatim; non-matching strings are returned
unchanged (shown by the match guard of the definition). -/
theorem format_model_name_matching (L W D R : List Char)
    (hL : L ≠ []) (hLl : ∀ c ∈ L, reLetter c = true)
    (hW : ∀ c ∈ W, reSpace c = true)
    (hD : ∀ c ∈ D, reDigit c = true) (hDlen : 3 ≤ D.length)
    (hR : R ≠ []) (hRd : ∀ c ∈ R.take 1, reDigit c = false)
    (hRn : '\n' ∉ R) :
    format_model_name (String.mk (L ++ (W ++ (D ++ R)))) =
      String.mk ((if L = ['E', 'M'] then "ecoMAX".data else L) ++ ' ' :: (D ++ R)) := by
  have hDne : D ≠ [] := by
    intro h
    rw [h] at hDlen
    simp at hDlen
  have hRd' : ∀ c, R.head? = some c → reDigit c = false := by
    intro c hc
    apply hRd
    cases R with
    | nil => simp at hc
    | cons r t => simp at hc; simp [hc]
  have hyW : ∀ c, (W ++ (D ++ R)).head? = some c → reLetter c = false := by
    intro c hc
    cases W with
    | nil =>
      cases D with
      | nil => exact absurd rfl hDne
      | cons d t =>
        simp at hc
        exact hc ▸ reLetter_false_of_reDigit d (hD d (by simp))
    | cons w t =>
      simp at hc
      exact hc ▸ reLetter_false_of_reSpace w (hW w (by simp))
  have hyD : ∀ c, (D ++ R).head? = some c → reSpace c = false := by
    intro c hc
    cases D with
    | nil => exact absurd rfl hDne
    | cons d t =>
      simp at hc
      exact hc ▸ reSpace_false_of_reDigit d (hD d (by simp))
  have h1 : spanP reLetter (L ++ (W ++ (D ++ R))) = (L, W ++ (D ++ R)) :=
    spanP_append _ _ _ hLl hyW
  have h2 : spanP reSpace (W ++ (D ++ R)) = (W, D ++ R) :=
    spanP_append _ _ _ hW hyD
  have h3 : spanP reDigit (D ++ R) = (D, R) := spanP_append _ _ _ hD hRd'
  have hLe : L.isEmpty = false := by
    cases L with
    | nil => exact absurd rfl hL
    | cons a t => rfl
  cases R with
  | nil => exact absurd rfl hR
  | cons r R' =>
    have hne : (r :: R') ≠ ['\n'] := by
      intro h
      exact hRn (by rw [h]; simp)
    simp only [format_model_name, matchModel, h1, h2, h3, hLe,
      Bool.false_eq_true, if_false, dotPlusEnd, hne, hRn, hDlen, if_true]

theorem format_model_name_matching_witness :
    format_model_name (String.mk ("EM".data ++ ([] ++ ("350".data ++ "P2-ZF".data)))) =
      String.mk ((if "EM".data = ['E', 'M'] then "ecoMAX".data else "EM".data) ++
        ' ' :: ("350".data ++ "P2-ZF".data)) :=
  format_model_name_matching "EM".data [] "350".data "P2-ZF".data
    (by decide) (by decide) (by decide) (by decide) (by decide) (by decide)
    (by decide) (by decide)

/-! ### Capability discovery (C5) -/

/-- C5.  The discovered capability set equals exactly the top-level value
names, plus `mixer_{i}_{attr}` for every mixer the snapshot's collection
holds and every attribute it exposes (no token for anything else), plus
`"water_heater"` if and only if `"water_heater_temp"` is a top-level name;
and the result does not depend on the mixer iteration order. -/
theorem capability_discovery_exact (device : DeviceSnap) :
    async_get_device_capabilities device = capabilitySetSpec device ∧
      ∀ mixers' : List MixerSnap, device.mixers.Perm mixers' →
        async_get_device_capabilities ⟨device.topKeys, mixers'⟩ =
          async_get_device_capabilities device := by
  refine ⟨async_get_device_capabilities_eq device, ?_⟩
  intro mixers' hperm
  rw [async_get_device_capabilities_eq, async_get_device_capabilities_eq]
  unfold capabilitySetSpec
  by_cases hm : ATTR_MIXERS ∈ device.topKeys
  · simp only [hm, if_true]
    ext x
    simp only [Finset.mem_union, mem_foldr_union]
    simp [hperm.mem_iff]
  · simp [hm]

theorem capability_discovery_exact_witness :
    (async_get_device_capabilities
        ⟨{"mixers", "water_heater_temp", "heating_temp"},
          [⟨0, {"target_temp"}⟩, ⟨1, {"pump"}⟩]⟩ =
      capabilitySetSpec
        ⟨{"mixers", "water_heater_temp", "heating_temp"},
          [⟨0, {"target_temp"}⟩, ⟨1, {"pump"}⟩]⟩) ∧
    (async_get_device_capabilities
        ⟨{"mixers", "water_heater_temp", "heating_temp"},
          [⟨1, {"pump"}⟩, ⟨0, {"target_temp"}⟩]⟩ =
      async_get_device_capabilities
        ⟨{"mixers", "water_heater_temp", "heating_temp"},
          [⟨0, {"target_temp"}⟩, ⟨1, {"pump"}⟩]⟩) :=
  ⟨(capability_discovery_exact _).1,
    (capability_discovery_exact
      ⟨{"mixers", "water_heater_temp", "heating_temp"},
        [⟨0, {"target_temp"}⟩, ⟨1, {"pump"}⟩]⟩).2
      [⟨1, {"pump"}⟩, ⟨0, {"target_temp"}⟩] (by decide)⟩

/-! ### Target-device resolution (C6) -/

theorem startsWithL_append_self (pat t : List Char) :
    startsWithL pat (pat ++ t) = true := by
  induction pat with
  | nil => rfl
  | cons p ps ih => simp [startsWithL, ih]

theorem hasSub_self_append (pat t : List Char) (h : pat ≠ []) :
    hasSub pat (pat ++ t) = true := by
  cases pat with
  | nil => exact absurd rfl h
  | cons p ps =>
    show hasSub (p :: ps) (p :: (ps ++ t)) = true
    rw [hasSub, Bool.or_eq_true]
    exact Or.inl (startsWithL_append_self (p :: ps) t)

theorem hasSub_append_left (pat x s : List Char) (h : hasSub pat s = true) :
    hasSub pat (x ++ s) = true := by
  induction x with
  | nil => exact h
  | cons c t ih =>
    rw [List.cons_append, hasSub]
    simp [ih]

theorem breakDash_no_dash (u : List Char) (h : '-' ∉ u) :
    breakDash u = (u, none) := by
  induction u with
  | nil => rfl
  | cons c t ih =>
    have hc : c ≠ '-' := fun hc => h (by simp [hc])
    have ih' := ih fun hm => h (by simp [hm])
    simp [breakDash, hc, ih']

theorem breakDash_split (u r : List Char) (h : '-' ∉ u) :
    breakDash (u ++ '-' :: r) = (u, some r) := by
  induction u with
  | nil => simp [breakDash]
  | cons c t ih =>
    have hc : c ≠ '-' := fun hc => h (by simp [hc])
    have ih' := ih fun hm => h (by simp [hm])
    simp [breakDash, hc, ih']

theorem not_dash_of_reDigit (c : Char) (h : reDigit c = true) : c ≠ '-' :=
  fun hc => absurd h (by rw [hc]; decide)

theorem pyInt_digits (ds : List Char) (hne : ds ≠ [])
    (hd : ∀ c ∈ ds, reDigit c = true) : pyInt ds = some (digitsVal ds : Int) := by
  have hstrip : ∀ (l : List Char), (∀ c ∈ l, reDigit c = true) →
      l.dropWhile reSpace = l := by
    intro l hl
    cases l with
    | nil => rfl
    | cons c t =>
      have : reSpace c = false := reSpace_false_of_reDigit c (hl c (by simp))
      simp [List.dropWhile, this]
  have hrev : ∀ c ∈ ds.reverse, reDigit c = true := by
    intro c hc
    exact hd c (List.mem_reverse.mp hc)
  have hs : ((ds.dropWhile reSpace).reverse.dropWhile reSpace).reverse = ds := by
    rw [hstrip ds hd, hstrip ds.reverse hrev, List.reverse_reverse]
  rw [pyInt]
  cases hds : ds with
  | nil => exact absurd hds hne
  | cons c t =>
    rw [hds] at hs
    rw [hs]
    have hc : reDigit c = true := hd c (by simp [hds])
    have hcd : c ≠ '-' := not_dash_of_reDigit c hc
    have hcp : c ≠ '+' := fun hp => absurd hc (by rw [hp]; decide)
    have hall : (c :: t).all reDigit = true := by
      rw [List.all_eq_true]
      intro x hx
      exact hd x (by rw [hds]; exact hx)
    simp [hcd, hcp, hall]

/-- C6 counterexample.  For the uid `"a-b-c"` (two hyphens), the mixer
identifier `"a-b-c-mixer-2"` contains the mixer marker and index 2 is
present in the mixer collection, yet resolution does not return the mixer:
`split("-", 3).pop()` yields the token `"mixer-2"` and `int()` raises an
uncaught `ValueError` — contradicting "returns the referenced mixer … for
every uid string" and "without raising". -/
theorem resolve_device_multi_hyphen_uid_raises :
    async_extract_target_device (fun _ => some "a-b-c-mixer-2")
      ⟨9, [(0, 10), (1, 11), (2, 12)]⟩ "d1" = .error .valueError := by
  rfl

theorem dash_decomp (u : List Char)
    (h : u.countP (fun c => c == '-') ≤ 1) :
    '-' ∉ u ∨ ∃ a b, u = a ++ '-' :: b ∧ '-' ∉ a ∧ '-' ∉ b := by
  induction u with
  | nil => exact Or.inl (by simp)
  | cons c t ih =>
    by_cases hc : c = '-'
    · subst hc
      rw [List.countP_cons_of_pos _ _ (by simp)] at h
      have ht : t.countP (fun c => c == '-') = 0 := by omega
      have : '-' ∉ t := by
        intro hm
        have := List.countP_eq_zero.mp ht '-' hm
        simp at this
      exact Or.inr ⟨[], t, rfl, by simp, this⟩
    · rw [List.countP_cons_of_neg _ _ (by simp [hc])] at h
      rcases ih h with h' | ⟨a, b, rfl, ha, hb⟩
      · refine Or.inl ?_
        intro hm
        rcases List.mem_cons.mp hm with hh | hh
        · exact hc hh.symm
        · exact h' hh
      · refine Or.inr ⟨c :: a, b, rfl, ?_, hb⟩
        intro hm
        rcases List.mem_cons.mp hm with hh | hh
        · exact hc hh.symm
        · exact ha hh

theorem splitDash_split (n : Nat) (u r : List Char) (h : '-' ∉ u) :
    splitDash (n + 1) (u ++ '-' :: r) = u :: splitDash n r := by
  show (match breakDash (u ++ '-' :: r) with
    | (pre, some post) => pre :: splitDash n post
    | (_, none) => [u ++ '-' :: r]) = u :: splitDash n r
  rw [breakDash_split u r h]

theorem splitDash_whole (n : Nat) (u : List Char) (h : '-' ∉ u) :
    splitDash (n + 1) u = [u] := by
  show (match breakDash u with
    | (pre, some post) => pre :: splitDash n post
    | (_, none) => [u]) = [u]
  rw [breakDash_no_dash u h]

/-- C6 amended.  For every registered device id whose identifier is
`uid + "-mixer-" + index` with the uid containing at most one hyphen (so
`split("-", 3)` isolates the index token), resolution returns the mixer at
that index when present and falls back to the main device otherwise,
without raising; uids with two or more hyphens instead corrupt the token
(e.g. `"mixer-2"`) and `int()` raises `ValueError` (see the
counterexample). -/
theorem resolve_device_amended (reg : String → Option String)
    (conn : ConnDevices) (device_id uid : String) (ds : List Char)
    (huid : uid.data.countP (fun c => c == '-') ≤ 1)
    (hne : ds ≠ []) (hds : ∀ c ∈ ds, reDigit c = true)
    (hreg : reg device_id = some (uid ++ "-mixer-" ++ String.mk ds)) :
    async_extract_target_device reg conn device_id =
      .ok ((lookupMixer conn.mixers (digitsVal ds : Int)).getD conn.main) := by
  have hdata : (uid ++ "-mixer-" ++ String.mk ds).data =
      uid.data ++ ('-' :: ("mixer".data ++ '-' :: ds)) := by
    simp [String.data_append]
  have hdash_ds : '-' ∉ ds := fun hm => absurd (hds '-' hm) (by decide)
  have hdash_mixer : '-' ∉ "mixer".data := by decide
  have hsplit : (splitDash 3 (uid ++ "-mixer-" ++ String.mk ds).data).getLastD [] = ds := by
    rw [hdata]
    rcases dash_decomp uid.data huid with hnd | ⟨a, b, huab, ha, hb⟩
    · have e1 : splitDash 3 (uid.data ++ '-' :: ("mixer".data ++ '-' :: ds)) =
          uid.data :: splitDash 2 ("mixer".data ++ '-' :: ds) :=
        splitDash_split 2 uid.data _ hnd
      have e2 : splitDash 2 ("mixer".data ++ '-' :: ds) =
          "mixer".data :: splitDash 1 ds :=
        splitDash_split 1 "mixer".data ds hdash_mixer
      have e3 : splitDash 1 ds = [ds] := splitDash_whole 0 ds hdash_ds
      rw [e1, e2, e3]
      rfl
    · rw [huab, List.append_assoc, List.cons_append]
      have e1 : splitDash 3 (a ++ '-' :: (b ++ '-' :: ("mixer".data ++ '-' :: ds))) =
          a :: splitDash 2 (b ++ '-' :: ("mixer".data ++ '-' :: ds)) :=
        splitDash_split 2 a _ ha
      have e2 : splitDash 2 (b ++ '-' :: ("mixer".data ++ '-' :: ds)) =
          b :: splitDash 1 ("mixer".data ++ '-' :: ds) :=
        splitDash_split 1 b _ hb
      have e3 : splitDash 1 ("mixer".data ++ '-' :: ds) =
          "mixer".data :: splitDash 0 ds :=
        splitDash_split 0 "mixer".data ds hdash_mixer
      rw [e1, e2, e3]
      rfl
  have hsub : hasSub "-mixer-".data (uid ++ "-mixer-" ++ String.mk ds).data = true := by
    rw [hdata]
    exact hasSub_append_left _ _ _ (hasSub_self_append "-mixer-".data ds (by decide))
  rw [async_extract_target_device, hreg]
  simp only [hsub, if_true, hsplit, pyInt_digits ds hne hds]
  cases hl : lookupMixer conn.mixers (digitsVal ds : Int) <;> simp [hl]

theorem resolve_device_amended_witness :
    async_extract_target_device (fun _ => some ("AB-CD" ++ "-mixer-" ++ String.mk ['2']))
        ⟨9, [(0, 10), (2, 12)]⟩ "d1" =
      .ok ((lookupMixer [(0, 10), (2, 12)] (digitsVal ['2'] : Int)).getD 9) :=
  resolve_device_amended _ ⟨9, [(0, 10), (2, 12)]⟩ "d1" "AB-CD" ['2']
    (by decide) (by decide) (by decide) rfl

/-! ### Parameter fan-out aggregation (C7) -/

/-- C7.  Per-device not-found and timeout outcomes become `None` and are
excluded from the aggregate result rather than propagated; the service
raises (`HomeAssistantError`, here `.error ()`) if and only if every device
of the fan-out yielded no usable record; and a successful call returns
exactly the non-`None` per-device records (a non-empty list). -/
theorem get_parameter_service_aggregation (name : String)
    (devices : List PlumDevice) (fetch : PlumDevice → Except FetchErr ParamVal)
    (productUid : PlumDevice → Option String) :
    (∀ (device : PlumDevice) (err : FetchErr) (uid : Option String),
      async_get_device_parameter device name (.error err) uid = none) ∧
    (async_get_parameter_service name devices fetch productUid = .error () ↔
      ∀ device ∈ devices,
        async_get_device_parameter device name (fetch device) (productUid device) = none) ∧
    (∀ records,
      async_get_parameter_service name devices fetch productUid = .ok records →
        records = (devices.map fun device =>
          async_get_device_parameter device name (fetch device)
            (productUid device)).filterMap id ∧
          records ≠ []) := by
  have hkey : ((devices.map fun device =>
      async_get_device_parameter device name (fetch device)
        (productUid device)).filterMap id = []) ↔
      ∀ device ∈ devices,
        async_get_device_parameter device name (fetch device)
          (productUid device) = none := by
    rw [List.filterMap_eq_nil_iff]
    constructor
    · intro h device hd
      exact h _ (List.mem_map_of_mem _ hd)
    · intro h a ha
      obtain ⟨device, hd, rfl⟩ := List.mem_map.mp ha
      exact h device hd
  refine ⟨fun device err uid => rfl, ?_, ?_⟩
  · unfold async_get_parameter_service
    by_cases he : ((devices.map fun device =>
        async_get_device_parameter device name (fetch device)
          (productUid device)).filterMap id).isEmpty
    · simp only [he, if_true]
      simp only [List.isEmpty_iff] at he
      exact ⟨fun _ => hkey.mp he, fun _ => trivial⟩
    · simp only [he, if_false]
      constructor
      · intro h
        exact absurd h (by simp)
      · intro hall
        exact absurd (List.isEmpty_iff.mpr (hkey.mpr hall)) he
  · intro records hrec
    unfold async_get_parameter_service at hrec
    by_cases he : ((devices.map fun device =>
        async_get_device_parameter device name (fetch device)
          (productUid device)).filterMap id).isEmpty
    · rw [if_pos he] at hrec
      exact absurd hrec (by simp)
    · rw [if_neg he] at hrec
      simp only [Except.ok.injEq] at hrec
      subst hrec
      refine ⟨rfl, ?_⟩
      intro hnil
      exact he (List.isEmpty_iff.mpr hnil)

theorem get_parameter_service_aggregation_witness :
    (async_get_device_parameter .ecomax "heating_target_temp"
        (.error .timedOut) none = none) ∧
    (async_get_parameter_service "heating_target_temp" [.ecomax]
        (fun _ => .error .parameterNotFound) (fun _ => none) = .error ()) ∧
    (([⟨"heating_target_temp", 5, 0, 9, "mixer", "unknown", 1⟩] : List ParamRecord) =
        ([PlumDevice.mixer 0].map fun device =>
          async_get_device_parameter device "heating_target_temp"
            (.ok ⟨5, 0, 9⟩) none).filterMap id ∧
      ([⟨"heating_target_temp", 5, 0, 9, "mixer", "unknown", 1⟩] : List ParamRecord) ≠ []) :=
  ⟨(get_parameter_service_aggregation "heating_target_temp" []
      (fun _ => .error .timedOut) (fun _ => none)).1 .ecomax .timedOut none,
    (get_parameter_service_aggregation "heating_target_temp" [.ecomax]
      (fun _ => .error .parameterNotFound) (fun _ => none)).2.1.mpr (by decide),
    (get_parameter_service_aggregation "heating_target_temp" [.mixer 0]
      (fun _ => .ok ⟨5, 0, 9⟩) (fun _ => none)).2.2
      [⟨"heating_target_temp", 5, 0, 9, "mixer", "unknown", 1⟩] rfl⟩

/-! ### Reported device index is 1-based (C10) -/

/-- C10.  Every record the get-parameter fan-out produces reports
`device_index = index + 1` for a mixer target (`hasattr(device, "index")`)
and `0` for the main device: mixer 0 shows up as device index 1 even
though selectors and capability tokens use the 0-based index. -/
theorem get_parameter_device_index_one_based (device : PlumDevice)
    (name : String) (p : ParamVal) (uid : Option String) (record : ParamRecord)
    (h : async_get_device_parameter device name (.ok p) uid = some record) :
    record.device_index =
      match device with
      | .mixer i => i + 1
      | .ecomax => 0 := by
  cases device with
  | ecomax =>
    simp only [async_get_device_parameter, Option.some.injEq] at h
    subst h
    rfl
  | mixer i =>
    simp only [async_get_device_parameter, Option.some.injEq] at h
    subst h
    rfl

theorem get_parameter_device_index_one_based_witness :
    (⟨"heating_target_temp", 5, 0, 9, "mixer", "unknown", 1⟩ : ParamRecord).device_index = 1 :=
  get_parameter_device_index_one_based (.mixer 0) "heating_target_temp"
    ⟨5, 0, 9⟩ none ⟨"heating_target_temp", 5, 0, 9, "mixer", "unknown", 1⟩ rfl

/-! ### Schedule-day decoding (C8) -/

theorem scheduleEntriesFrom_length (i : Nat) (l : List Bool) :
    (scheduleEntriesFrom i l).length = l.length := by
  induction l generalizing i with
  | nil => rfl
  | cons b t ih => simp [scheduleEntriesFrom, ih]

theorem scheduleEntriesFrom_snd (i : Nat) (l : List Bool) :
    (scheduleEntriesFrom i l).map Prod.snd =
      l.map fun value => if value then STATE_DAY else STATE_NIGHT := by
  induction l generalizing i with
  | nil => rfl
  | cons b t ih => simp [scheduleEntriesFrom, ih]

theorem scheduleEntriesFrom_fst_congr (i : Nat) (l₁ l₂ : List Bool)
    (h : l₁.length = l₂.length) :
    (scheduleEntriesFrom i l₁).map Prod.fst =
      (scheduleEntriesFrom i l₂).map Prod.fst := by
  induction l₁ generalizing i l₂ with
  | nil =>
    cases l₂ with
    | nil => rfl
    | cons b t => simp at h
  | cons b t ih =>
    cases l₂ with
    | nil => simp at h
    | cons b' t' =>
      simp only [List.length_cons, Nat.succ.injEq] at h
      simp [scheduleEntriesFrom, ih (i + 1) t' h]

/-- C8 counterexample.  Decoding a 48-slot day yields keys in `"HH:MM"`
format (pyplumio's `TIME_FORMAT`), not the `"HH:MM:SS"` the claim states:
the first key is `"00:00"` and `"00:00:00"` is not a key at all. -/
theorem schedule_day_keys_not_hhmmss :
    ((async_schedule_day_to_dict ⟨List.replicate 48 false⟩).map Prod.fst).head? =
        some "00:00" ∧
      "00:00:00" ∉ (async_schedule_day_to_dict ⟨List.replicate 48 false⟩).map Prod.fst := by
  constructor
  · rfl
  · decide

/-- C8 amended.  For every 48-slot boolean schedule day, decoding is pure
and total and produces exactly 48 pairwise-distinct keys — timestamp
strings in `HH:MM` format starting at `"00:00"` and stepping 30 minutes —
where the key of slot `i` maps to `"day"` when the slot is true and
`"night"` when it is false. -/
theorem schedule_day_decode (d : ScheduleDay) (h : d.intervals.length = 48) :
    (async_schedule_day_to_dict d).map Prod.fst = halfHourKeys ∧
      halfHourKeys.Nodup ∧
      (async_schedule_day_to_dict d).map Prod.snd =
        d.intervals.map (fun value => if value then STATE_DAY else STATE_NIGHT) ∧
      (async_schedule_day_to_dict d).length = 48 := by
  refine ⟨?_, by decide, scheduleEntriesFrom_snd 0 d.intervals, ?_⟩
  · have hc := scheduleEntriesFrom_fst_congr 0 d.intervals
      (List.replicate 48 false) (by simp [h])
    unfold async_schedule_day_to_dict
    rw [hc]
    decide
  · unfold async_schedule_day_to_dict
    rw [scheduleEntriesFrom_length, h]

theorem schedule_day_decode_witness :
    (async_schedule_day_to_dict ⟨List.replicate 48 true⟩).map Prod.fst = halfHourKeys ∧
      halfHourKeys.Nodup ∧
      (async_schedule_day_to_dict ⟨List.replicate 48 true⟩).map Prod.snd =
        (List.replicate 48 true).map (fun value => if value then STATE_DAY else STATE_NIGHT) ∧
      (async_schedule_day_to_dict ⟨List.replicate 48 true⟩).length = 48 :=
  schedule_day_decode ⟨List.replicate 48 true⟩ (by decide)

/-! ### Alert events (C9) -/

/-- C9.  When the registry device resolves, an alert batch produces exactly
one event per alert (in list order): each event carries the connection
name, the registry device id, the alert code, the start timestamp in
`YYYY-MM-DD HH:MM:SS` format, and — because `toTs` is
`alert.to_dt.map strftimeFull` — an end timestamp in the same format
present if and only if the alert has concluded (`to_dt` non-`None`). -/
theorem alert_events_one_per_alert (device : RegDevice) (connName : String)
    (alerts : List Alert) (i : Nat) (hi : i < alerts.length) :
    (async_dispatch_alert_events (some device) connName alerts).length =
        alerts.length ∧
      (async_dispatch_alert_events (some device) connName alerts)[i]? =
        some
          { name := connName
            device_id := device.id
            code := (alerts.get ⟨i, hi⟩).code
            fromTs := strftimeFull (alerts.get ⟨i, hi⟩).from_dt
            toTs := ((alerts.get ⟨i, hi⟩).to_dt).map strftimeFull } ∧
      ((((alerts.get ⟨i, hi⟩).to_dt).map strftimeFull).isSome ↔
        ((alerts.get ⟨i, hi⟩).to_dt).isSome) := by
  refine ⟨by simp [async_dispatch_alert_events], ?_, by simp⟩
  simp [async_dispatch_alert_events, List.getElem?_eq_getElem hi,
    List.get_eq_getElem]

theorem alert_events_one_per_alert_witness :
    (async_dispatch_alert_events (some ⟨"dev1"⟩) "conn"
        [⟨11, ⟨2024, 1, 2, 3, 4, 5⟩, none⟩,
          ⟨12, ⟨2024, 1, 2, 3, 4, 5⟩, some ⟨2024, 1, 2, 6, 7, 8⟩⟩]).length = 2 ∧
      (async_dispatch_alert_events (some ⟨"dev1"⟩) "conn"
          [⟨11, ⟨2024, 1, 2, 3, 4, 5⟩, none⟩,
            ⟨12, ⟨2024, 1, 2, 3, 4, 5⟩, some ⟨2024, 1, 2, 6, 7, 8⟩⟩])[1]? =
        some
          { name := "conn"
            device_id := "dev1"
            code := 12
            fromTs := strftimeFull ⟨2024, 1, 2, 3, 4, 5⟩
            toTs := (some ⟨2024, 1, 2, 6, 7, 8⟩ : Option PyDateTime).map strftimeFull } ∧
      (((some ⟨2024, 1, 2, 6, 7, 8⟩ : Option PyDateTime).map strftimeFull).isSome ↔
        (some ⟨2024, 1, 2, 6, 7, 8⟩ : Option PyDateTime).isSome) :=
  alert_events_one_per_alert ⟨"dev1"⟩ "conn"
    [⟨11, ⟨2024, 1, 2, 3, 4, 5⟩, none⟩,
      ⟨12, ⟨2024, 1, 2, 3, 4, 5⟩, some ⟨2024, 1, 2, 6, 7, 8⟩⟩] 1 (by decide)

end PlumEcomax
